import Mathlib

/-!
Shallow embedding of the document-structure extraction and contextual chunking
engine of the tunisie-valeurs RAG backend
(`backend/app/services/extract_structured_text.py` and
`backend/app/services/chunk_and_embed.py`), together with proofs settling the
specification claims about it.

Python strings are modelled as `List Char` (one element per code point, so
`len` is `List.length`); Python floats (font sizes, embedding coordinates) as
`ℚ`; `None` as `Option.none`.  Python truthiness of a string is emptiness of
the list.  Whitespace is `Char.isWhitespace` and character classes are the
ASCII ones of Lean core; this matches the Python semantics on the ASCII inputs
used throughout.
-/

set_option maxRecDepth 100000

namespace TVRag

/-- Python strings as lists of code points. -/
abbrev Str := List Char

/-- Whitespace predicate used by `str.strip`, `\s` and friends. -/
def isWS (c : Char) : Bool := c.isWhitespace

/-- Drop trailing whitespace (the right half of Python `str.strip()`). -/
def dropTrailingWS (l : Str) : Str := (l.reverse.dropWhile isWS).reverse

/-- Python `str.strip()`: drop leading and trailing whitespace. -/
def pyStrip (l : Str) : Str := dropTrailingWS (l.dropWhile isWS)

/-- Replace each maximal whitespace run by a single space
(`re.sub(r"\s+", " ", s)`); the flag records whether the previous character
was whitespace. -/
def collapseWSAux : Bool → Str → Str
  | _, [] => []
  | prevWS, c :: rest =>
    if isWS c then
      if prevWS then collapseWSAux true rest
      else ' ' :: collapseWSAux true rest
    else c :: collapseWSAux false rest

/-- Python `_normalize_text` of `extract_structured_text.py`:
`WHITESPACE_RE.sub(" ", value or "").strip()`. -/
def normalizeText (l : Str) : Str := pyStrip (collapseWSAux false l)

/-- Python `"\n".join(parts)`. -/
def joinNL : List Str → Str
  | [] => []
  | [p] => p
  | p :: q :: rest => p ++ '\n' :: joinNL (q :: rest)

/-- Python `is_page_number`: the text, stripped, matches `^\d{1,3}$`. -/
def isPageNumber (text : Str) : Bool :=
  let s := pyStrip text
  !s.isEmpty && decide (s.length ≤ 3) && s.all Char.isDigit

/-- Python `_normalize_boilerplate`: lowercase, collapse `[\d\W_]+` to spaces,
normalize whitespace.  `[\d\W_]` keeps exactly the alphabetic characters, and
replacing each such character by one space (instead of each run by one space)
gives the same result after `normalizeText` collapses whitespace runs. -/
def normalizeBoilerplate (text : Str) : Str :=
  normalizeText (text.map fun c => if c.isAlpha then c.toLower else ' ')

/-- Python `_starts_with_lower`: text lstripped, nonempty and first char lowercase. -/
def startsWithLower (text : Str) : Bool :=
  match text.dropWhile isWS with
  | [] => false
  | c :: _ => c.isLower

/-- Python `_starts_with_upper`: text lstripped, nonempty and first char uppercase. -/
def startsWithUpper (text : Str) : Bool :=
  match text.dropWhile isWS with
  | [] => false
  | c :: _ => c.isUpper

/-- Python `_ends_with_period`: text rstripped ends with a period. -/
def endsWithPeriod (text : Str) : Bool :=
  match text.reverse.dropWhile isWS with
  | [] => false
  | c :: _ => c = '.'

/-- Python `_uppercase_ratio`: uppercase letters over all alphabetic characters,
`0` when there are no letters (exact rational instead of a float). -/
def uppercaseFrac (text : Str) : ℚ :=
  let letters := (text.filter Char.isAlpha).length
  if letters = 0 then 0
  else ((text.filter Char.isUpper).length : ℚ) / (letters : ℚ)

/-- Bullet glyphs of `BULLET_CHARS`, plus the `-` and `*` of the character
class in `LIST_PREFIX_RE`. -/
def bulletChars : List Char :=
  ['-', '*', '•', '–', '■', '▪', '●', '◦',
   '‣', '·', '∙']

/-- The trailing `\s+` of `LIST_PREFIX_RE`: at least one whitespace char. -/
def afterMarkerWS : Str → Bool
  | [] => false
  | c :: _ => isWS c

/-- Python `LIST_PREFIX_RE.match(text)`:
`^\s*(?:[-*•–■▪●◦‣·∙]|\d{1,3}[.)]|[a-zA-Z][.)]|\([a-zA-Z0-9]{1,3}\))\s+`.
The four alternatives are distinguished by their first character, and inside
the digit and parenthesis alternatives only the maximal digit/alphanumeric
run can be followed by the closing punctuation, so the backtracking regex is
equivalent to this deterministic matcher. -/
def matchesListMarker (text : Str) : Bool :=
  match text.dropWhile isWS with
  | [] => false
  | c :: tail =>
    if bulletChars.contains c then afterMarkerWS tail
    else if c.isDigit then
      let ds := (c :: tail).takeWhile Char.isDigit
      let rest := (c :: tail).dropWhile Char.isDigit
      decide (ds.length ≤ 3) &&
        (match rest with
         | p :: tail2 => (p = '.' || p = ')') && afterMarkerWS tail2
         | [] => false)
    else if c.isAlpha then
      (match tail with
       | p :: tail2 => (p = '.' || p = ')') && afterMarkerWS tail2
       | [] => false)
    else if c = '(' then
      let an := tail.takeWhile Char.isAlphanum
      let rest := tail.dropWhile Char.isAlphanum
      decide (1 ≤ an.length) && decide (an.length ≤ 3) &&
        (match rest with
         | p :: tail2 => (p = ')') && afterMarkerWS tail2
         | [] => false)
    else false

/-- Block types stored in `DocumentBlock.block_type`. -/
inductive BlockType where
  | TITLE
  | PARAGRAPH
  | LIST_ITEM
deriving DecidableEq, Repr

open BlockType

/-- Python `_classify_text`: list marker beats everything, then the title heuristics
(`font_size > median*1.2`, or bold and shorter than 120 chars) with the
demotion guards. -/
def classifyText (text : Str) (fontSize : ℚ) (isBold : Bool)
    (medianFontSize : ℚ) : BlockType :=
  if matchesListMarker text then LIST_ITEM
  else
    let isTitle :=
      if medianFontSize > 0 ∧ fontSize > medianFontSize * (6 / 5) then true
      else if isBold ∧ text.length < 120 then true
      else false
    if isTitle then
      if startsWithLower text then PARAGRAPH
      else if 80 < text.length ∧ uppercaseFrac text < 1 / 2 then PARAGRAPH
      else TITLE
    else PARAGRAPH

/-- Python `_finalize_block_type`: post-merge demotion of long, mostly-lowercase
TITLE blocks. -/
def finalizeBlockType (blockType : BlockType) (text : Str) : BlockType :=
  if blockType = TITLE ∧ 80 < text.length ∧ uppercaseFrac text < 1 / 2 then
    PARAGRAPH
  else blockType

/-- Python `_append_text`: newline-join for LIST_ITEM (then stripped), space-join
plus whitespace normalization otherwise. -/
def appendText (base addition : Str) (blockType : BlockType) : Str :=
  if base.isEmpty then addition
  else if addition.isEmpty then base
  else if blockType = LIST_ITEM then pyStrip (base ++ '\n' :: addition)
  else normalizeText (base ++ ' ' :: addition)

/-- A line as produced by `_extract_page_items` for one page: normalized
nonenpty text, max span font size, boldness, and whether its vertical extent
put it in the header/footer band (the geometric test is kept abstract;
`boilerplate_key` is derived below exactly as in the code). -/
structure PageLine where
  text : Str
  fontSize : ℚ
  isBold : Bool
  isHeaderFooter : Bool
deriving DecidableEq, Repr

/-- Python `item["boilerplate_key"]`: set only for header/footer-band lines. -/
def boilerplateKeyOf (l : PageLine) : Option Str :=
  if l.isHeaderFooter then some (normalizeBoilerplate l.text) else none

/-- Whether some header/footer-band line of the page carries key `k`
(one page contributes one element to the key's page set). -/
def keyOccursOnPage (pg : List PageLine) (k : Str) : Bool :=
  pg.any fun l => boilerplateKeyOf l = some k

/-- Number of distinct pages on which boilerplate key `k` occurs
(the size of `boilerplate_pages[k]`; pages are distinct list positions). -/
def numPagesWithKey (pages : List (List PageLine)) (k : Str) : Nat :=
  (pages.filter fun pg => keyOccursOnPage pg k).length

/-- Membership in `boilerplate_keys`: the collection loop only records truthy
keys (`if key:`), so the empty key is never a boilerplate key; otherwise the
key must occur on at least 6 distinct pages. -/
def isBoilerplateKey (pages : List (List PageLine)) (k : Str) : Bool :=
  !k.isEmpty && decide (6 ≤ numPagesWithKey pages k)

/-- The filter of the second pass: drop an item iff it is a header/footer-band
line whose key is a boilerplate key (a `None` key is never in the key set). -/
def isExcludedItem (pages : List (List PageLine)) (l : PageLine) : Bool :=
  l.isHeaderFooter &&
    (match boilerplateKeyOf l with
     | some k => isBoilerplateKey pages k
     | none => false)

/-- Python `filtered_items` for one page. -/
def filteredPage (pages : List (List PageLine)) (pg : List PageLine) :
    List PageLine :=
  pg.filter fun l => !isExcludedItem pages l

/-- Insertion into a weakly sorted list (for the `sorted` underlying
`statistics.median`; only the multiset matters for the median value). -/
def insertSorted (x : ℚ) : List ℚ → List ℚ
  | [] => [x]
  | y :: ys => if x ≤ y then x :: y :: ys else y :: insertSorted x ys

/-- Insertion sort over `ℚ`. -/
def sortQ (l : List ℚ) : List ℚ := l.foldr insertSorted []

/-- Python `statistics.median` over exact rationals: middle element for odd length,
mean of the two middle elements for even length (callers guard emptiness). -/
def medianQ (l : List ℚ) : ℚ :=
  let s := sortQ l
  let n := s.length
  if n % 2 = 1 then s.getD (n / 2) 0
  else (s.getD (n / 2 - 1) 0 + s.getD (n / 2) 0) / 2

/-- The merge accumulator `current` (and the shape of `next_item`). -/
structure OpenBlock where
  pageNumber : Nat
  blockType : BlockType
  text : Str
  fontSize : ℚ
  isBold : Bool
deriving DecidableEq, Repr

/-- Python `_should_merge`. -/
def shouldMerge (current next : OpenBlock) : Bool :=
  if current.blockType ≠ next.blockType then false
  else
    match next.blockType with
    | TITLE =>
      decide (current.pageNumber = next.pageNumber) &&
        decide (current.text.length ≤ 80) && decide (next.text.length ≤ 80)
    | LIST_ITEM => true
    | PARAGRAPH => !(endsWithPeriod current.text && startsWithUpper next.text)

/-- Merging a new line into the open accumulator: append the text, keep the
max font size and the OR of the bold flags. -/
def mergeInto (current next : OpenBlock) : OpenBlock :=
  { current with
    text := appendText current.text next.text next.blockType
    fontSize := max current.fontSize next.fontSize
    isBold := current.isBold || next.isBold }

/-- A persisted `DocumentBlock` row (without ids; `block_index` is the list
position, dense and increasing by construction).  `font_size or None` maps a
zero font size to `none`. -/
structure BlockRow where
  pageNumber : Nat
  blockType : BlockType
  text : Str
  fontSize : Option ℚ
  isBold : Bool
deriving DecidableEq, Repr

/-- Closing the accumulator: finalize the block type and build the row. -/
def closeBlock (c : OpenBlock) : BlockRow :=
  ⟨c.pageNumber, finalizeBlockType c.blockType c.text, c.text,
   if c.fontSize = 0 then none else some c.fontSize, c.isBold⟩

/-- A classified line entering the merge fold (page number attached). -/
structure LineItem where
  pageNumber : Nat
  text : Str
  fontSize : ℚ
  isBold : Bool
deriving DecidableEq, Repr

/-- Python `next_item` built from a line and its classification. -/
def mkOpen (median : ℚ) (it : LineItem) : OpenBlock :=
  ⟨it.pageNumber, classifyText it.text it.fontSize it.isBold median,
   it.text, it.fontSize, it.isBold⟩

/-- Closing an optional accumulator. -/
def closeOpt : Option OpenBlock → List BlockRow
  | none => []
  | some c => [closeBlock c]

/-- The per-page classify-and-merge fold of `extract_structured_text`
(lines 290-349): classify each item, merge into the open block when
`_should_merge` allows, otherwise close the open block and reopen. -/
def mergeLoop (median : ℚ) (current : Option OpenBlock) :
    List LineItem → List BlockRow
  | [] => closeOpt current
  | it :: rest =>
    let nextOpen := mkOpen median it
    match current with
    | some c =>
      if shouldMerge c nextOpen then
        mergeLoop median (some (mergeInto c nextOpen)) rest
      else closeBlock c :: mergeLoop median (some nextOpen) rest
    | none => mergeLoop median (some nextOpen) rest

/-- The blocks the merge fold produces after a run ends: nothing when the
page is exhausted, otherwise the fold continued with the boundary line
opened fresh. -/
def restTail (median : ℚ) : List LineItem → List BlockRow
  | [] => []
  | r :: rs => mergeLoop median (some (mkOpen median r)) rs

/-- One page of the extraction loop: boilerplate filter, per-page median of
the positive font sizes, then the merge fold. -/
def pageBlocks (pages : List (List PageLine)) (pageNumber : Nat)
    (pg : List PageLine) : List BlockRow :=
  let filtered := filteredPage pages pg
  if filtered.isEmpty then []
  else
    let sizes := (filtered.map (·.fontSize)).filter fun s => 0 < s
    let med := if sizes.isEmpty then 0 else medianQ sizes
    mergeLoop med none
      (filtered.map fun l => ⟨pageNumber, l.text, l.fontSize, l.isBold⟩)

/-- The whole-document block computation (`blocks_to_insert`): two passes,
boilerplate statistics over all pages, then page-by-page classification and
merging; page numbers are 1-based positions. -/
def extractBlocks (pages : List (List PageLine)) : List BlockRow :=
  (pages.enum.map fun p => pageBlocks pages (p.1 + 1) p.2).flatten

/-! Definitions from `chunk_and_embed.py`.  Its `_normalize_text` is plain
`str.strip()`, i.e. `pyStrip`. -/

/-- A splitter unit dict: `{"text": ..., "paragraph_text": ...}`;
a missing `paragraph_text` key is `none`. -/
structure ChunkUnit where
  text : Str
  paragraphText : Option Str
deriving DecidableEq, Repr

/-- Python `_compose_chunk_text`: newline-join of the (truthy) title and the truthy
unit texts, stripped. -/
def composeChunkText (titleText : Str) (units : List ChunkUnit) : Str :=
  pyStrip (joinNL ((if titleText.isEmpty then [] else [titleText]) ++
    (units.map (·.text)).filter fun t => !t.isEmpty))

/-- The carry-over seeding after a chunk closes: a one-element unit built from
the last accumulated unit's truthy `paragraph_text`, if any. -/
def overlapSeed (currentUnits : List ChunkUnit) : List ChunkUnit :=
  match currentUnits.getLast? with
  | some lastU =>
    match lastU.paragraphText with
    | some p => if p.isEmpty then [] else [⟨p, some p⟩]
    | none => []
  | none => []

/-- The loop of `_split_units_with_overlap`: close the current chunk when it
is nonempty and adding the next unit would exceed `maxChars`, seed the next
chunk from the overlap paragraph, and always append the new unit; at the end
flush the remaining units.  Chunks whose composed text is empty are not
emitted. -/
def splitGo (titleText : Str) (maxChars : Nat) (currentUnits : List ChunkUnit) :
    List ChunkUnit → List Str
  | [] =>
    if currentUnits.isEmpty then []
    else
      let t := composeChunkText titleText currentUnits
      if t.isEmpty then [] else [t]
  | u :: rest =>
    let candidateText := composeChunkText titleText (currentUnits ++ [u])
    if !currentUnits.isEmpty && decide (maxChars < candidateText.length) then
      let chunkText := composeChunkText titleText currentUnits
      (if chunkText.isEmpty then [] else [chunkText]) ++
        splitGo titleText maxChars (overlapSeed currentUnits ++ [u]) rest
    else splitGo titleText maxChars (currentUnits ++ [u]) rest

/-- Python `_split_units_with_overlap`: empty unit lists give the bare (stripped)
title, when truthy; otherwise the greedy packing loop. -/
def splitUnitsWithOverlap (titleText : Str) (units : List ChunkUnit)
    (maxChars : Nat) : List Str :=
  if units.isEmpty then
    if titleText.isEmpty then [] else [pyStrip titleText]
  else splitGo titleText maxChars [] units

/-- Instrumented splitter loop returning, in order, the unit list of each
emitted chunk (same recursion and emission conditions as `splitGo`). -/
def splitGoUnits (titleText : Str) (maxChars : Nat)
    (currentUnits : List ChunkUnit) : List ChunkUnit → List (List ChunkUnit)
  | [] =>
    if currentUnits.isEmpty then []
    else if (composeChunkText titleText currentUnits).isEmpty then []
    else [currentUnits]
  | u :: rest =>
    let candidateText := composeChunkText titleText (currentUnits ++ [u])
    if !currentUnits.isEmpty && decide (maxChars < candidateText.length) then
      (if (composeChunkText titleText currentUnits).isEmpty then []
       else [currentUnits]) ++
        splitGoUnits titleText maxChars (overlapSeed currentUnits ++ [u]) rest
    else splitGoUnits titleText maxChars (currentUnits ++ [u]) rest

/-- Unit lists of the chunks of `_split_units_with_overlap`; the bare-title
chunk of an empty unit list is represented by the empty unit list (its
composed text is the stripped title). -/
def splitUnitsAsLists (titleText : Str) (units : List ChunkUnit)
    (maxChars : Nat) : List (List ChunkUnit) :=
  if units.isEmpty then
    if titleText.isEmpty then [] else [[]]
  else splitGoUnits titleText maxChars [] units

/-- An in-memory section of `build_contextual_chunks`. -/
structure SectionRec where
  page : Option Nat
  title : Str
  blocks : List BlockRow
deriving DecidableEq, Repr

/-- The walk grouping the ordered block stream into sections: a TITLE block
closes the current section (kept only if it has a title or blocks) and opens
a new one; other blocks accumulate, setting the section page if unset. -/
def buildSectionsGo (current : SectionRec) : List BlockRow → List SectionRec
  | [] =>
    if !current.title.isEmpty || !current.blocks.isEmpty then [current] else []
  | b :: rest =>
    if b.blockType = TITLE then
      (if !current.title.isEmpty || !current.blocks.isEmpty then [current]
       else []) ++
        buildSectionsGo ⟨some b.pageNumber, b.text, []⟩ rest
    else
      buildSectionsGo
        { current with
          page := match current.page with
            | none => some b.pageNumber
            | some p => some p
          blocks := current.blocks ++ [b] } rest

/-- Sections of a document's ordered block list. -/
def buildSections (blocks : List BlockRow) : List SectionRec :=
  buildSectionsGo ⟨none, [], []⟩ blocks

/-- Python `section["page"] or 1` (Python falsy: `None` and `0` give `1`). -/
def pageOr1 : Option Nat → Nat
  | none => 1
  | some 0 => 1
  | some (n + 1) => n + 1

/-- A segment: a typed piece of section content. -/
structure Segment where
  type : BlockType
  text : Str
deriving DecidableEq, Repr

/-- The segment-building loop over a section's blocks: skip empty texts,
buffer consecutive LIST_ITEM blocks and flush them newline-joined as one
LIST_ITEM segment. -/
def segmentsOfBlocks : List BlockRow → List Str → List Segment
  | [], buffer =>
    if buffer.isEmpty then [] else [⟨LIST_ITEM, joinNL buffer⟩]
  | b :: rest, buffer =>
    let text := pyStrip b.text
    if text.isEmpty then segmentsOfBlocks rest buffer
    else if b.blockType = LIST_ITEM then
      segmentsOfBlocks rest (buffer ++ [text])
    else
      (if buffer.isEmpty then [] else [⟨LIST_ITEM, joinNL buffer⟩]) ++
        ⟨b.blockType, text⟩ :: segmentsOfBlocks rest []

/-- All segments of a section: a TITLE segment when the stripped title is
truthy, then the block segments. -/
def sectionSegments (sec : SectionRec) : List Segment :=
  let titleText := pyStrip sec.title
  (if titleText.isEmpty then [] else [⟨TITLE, titleText⟩]) ++
    segmentsOfBlocks sec.blocks []

/-- Python `content_segments`: the segments with a leading TITLE segment dropped. -/
def contentSegments : List Segment → List Segment
  | [] => []
  | s :: rest => if s.type = TITLE then rest else s :: rest

/-- The unit-building loop: accumulate segments; a PARAGRAPH segment closes a
unit whose text is the newline-join of the run (stripped, kept when truthy)
and whose `paragraph_text` is that paragraph's own text; a trailing run forms
a final unit with no `paragraph_text`. -/
def unitsOfSegments : List Segment → List Segment → List ChunkUnit
  | [], unitSegs =>
    if unitSegs.isEmpty then []
    else
      let utext := pyStrip (joinNL (unitSegs.map (·.text)))
      if utext.isEmpty then [] else [⟨utext, none⟩]
  | seg :: rest, unitSegs =>
    let unitSegs' := unitSegs ++ [seg]
    if seg.type = PARAGRAPH then
      let utext := pyStrip (joinNL (unitSegs'.map (·.text)))
      (if utext.isEmpty then [] else [⟨utext, some seg.text⟩]) ++
        unitsOfSegments rest []
    else unitsOfSegments rest unitSegs'

/-- The chunk texts of one section before asset annotation: split the units,
falling back to a title-only chunk when the split is empty and the title is
truthy. -/
def sectionBaseChunks (maxChars : Nat) (sec : SectionRec) : List Str :=
  let titleText := pyStrip sec.title
  let units := unitsOfSegments (contentSegments (sectionSegments sec)) []
  let sectionChunks0 := splitUnitsWithOverlap titleText units maxChars
  if sectionChunks0.isEmpty && !titleText.isEmpty then [titleText]
  else sectionChunks0

/-- The chunk texts of one section: the base chunks, with the page's asset
text (newline-joined; the f-string append is then stripped) appended to the
last chunk when both are truthy.  `assetFn` is the computed `asset_map`
lookup with default `[]`. -/
def sectionChunkTexts (assetFn : Nat → List Str) (maxChars : Nat)
    (sec : SectionRec) : List Str :=
  let chunks1 := sectionBaseChunks maxChars sec
  let assetsText := pyStrip (joinNL (assetFn (pageOr1 sec.page)))
  if !assetsText.isEmpty && !chunks1.isEmpty then
    chunks1.dropLast ++ [pyStrip (chunks1.getLastD [] ++ '\n' :: assetsText)]
  else chunks1

/-- A chunk produced by `build_contextual_chunks` (page and text). -/
structure ChunkOut where
  page : Nat
  text : Str
deriving DecidableEq, Repr

/-- The chunks of one section, tagged with the section page. -/
def sectionChunks (assetFn : Nat → List Str) (maxChars : Nat)
    (sec : SectionRec) : List ChunkOut :=
  (sectionChunkTexts assetFn maxChars sec).map fun t => ⟨pageOr1 sec.page, t⟩

/-- A `DocumentAsset` row as read by `_build_asset_map` (`None` texts are
modelled as empty). -/
structure AssetRow where
  pageNumber : Option Nat
  captionText : Str
  tableContent : Str
deriving DecidableEq, Repr

/-- The text `_build_asset_map` derives from one asset: the caption prefixed
with the fixed label line (label alone when only table content is present),
then the table content, newline-joined and stripped.  Empty when both parts
are blank (the code's early `continue`). -/
def assetText (a : AssetRow) : Str :=
  let caption := pyStrip a.captionText
  let table := pyStrip a.tableContent
  pyStrip (joinNL
    ((if !caption.isEmpty then
        [('R' :: ("elated figure/table: ".data)) ++ caption]
      else if !table.isEmpty then ['R' :: ("elated figure/table:".data)]
      else []) ++
     (if !table.isEmpty then [table] else [])))

/-- Python `_build_asset_map` as a lookup: the texts, in asset order, of the assets
on a given (truthy) page that contribute a nonempty text. -/
def buildAssetMap (assets : List AssetRow) : Nat → List Str := fun page =>
  ((assets.filter fun a =>
      (match a.pageNumber with
       | some p => !decide (p = 0) && decide (p = page)
       | none => false) && !(assetText a).isEmpty).map assetText)

/-- Python `build_contextual_chunks` given the document's ordered blocks and assets
(the two database reads): sections, per-section units, size-bounded splitting
with overlap, and page-scoped asset annotation. -/
def buildContextualChunks (blocks : List BlockRow) (assets : List AssetRow)
    (maxChars : Nat) (includeAssets : Bool) : List ChunkOut :=
  if blocks.isEmpty then []
  else
    let assetFn := if includeAssets then buildAssetMap assets else fun _ => []
    ((buildSections blocks).map (sectionChunks assetFn maxChars)).flatten

/-! Service-level model.  A call works on one document's rows; the session's
pending writes become durable only at `db.commit()`, so each function below
maps the committed database state before the call to the committed state
after it (a raised exception leaves the committed state unchanged, because
these functions never commit before raising).  External collaborators (the
PDF reader and the embedding API) enter as explicit outcome parameters. -/

/-- Python `Chunk.embedding` dimension from `app/db/models.py`. -/
def VECTOR_DIM : Nat := 768

/-- The owning `Document` row's fields touched by the two services.
`fileExists` models `os.path.isfile(local_path)`; `processedSet` records
that `processed_at` was written. -/
structure DocRecord where
  localPath : Option Str
  fileExists : Bool
  status : Str
  errorMessage : Option Str
  pageCount : Option Nat
  processedSet : Bool
deriving DecidableEq, Repr

/-- A persisted `Chunk` row (without ids). -/
structure ChunkRow where
  page : Nat
  text : Str
  embedding : List ℚ
deriving DecidableEq, Repr

/-- The committed rows relevant to one document. -/
structure DBState where
  document : Option DocRecord
  blocks : List BlockRow
  chunks : List ChunkRow
  assets : List AssetRow
deriving Repr

/-- Python exceptions that escape the two services. -/
inductive PyExc where
  | valueError (msg : Str)
  | runtimeError (msg : Str)
deriving DecidableEq, Repr

/-- Python `f"Document {document_id} not found"`. -/
def notFoundMsg (docId : Nat) : Str :=
  ("Document ".data) ++ (Nat.repr docId).data ++ (" not found".data)

/-- The summary dict of `extract_structured_text`; `statusField` and
`errorField` are `none` when the corresponding keys are absent. -/
structure ExtractSummary where
  documentId : Nat
  pagesProcessed : Nat
  blocksCreated : Nat
  titlesCount : Nat
  listItemsCount : Nat
  statusField : Option Str
  errorField : Option Str
deriving DecidableEq, Repr

/-- Python `extract_structured_text(document_id, db, overwrite)`.  `pdf` is the
outcome of opening and reading the PDF: the per-page line lists, or the text
of the exception raised.  Returns the raised exception or the summary,
together with the committed database state after the call.  Note that the
`except` branch also commits, so the pending overwrite delete becomes
durable on failure. -/
def extractStructuredText (docId : Nat) (db : DBState) (overwrite : Bool)
    (pdf : Except Str (List (List PageLine))) :
    Except PyExc ExtractSummary × DBState :=
  match db.document with
  | none => (.error (.valueError (notFoundMsg docId)), db)
  | some doc =>
    let pathMissing :=
      (match doc.localPath with
       | none => true
       | some p => p.isEmpty) || !doc.fileExists
    if pathMissing then
      let err := ("local_path_missing: ".data) ++
        (match doc.localPath with
         | some p => p
         | none => "None".data)
      let doc' := { doc with
        status := "failed".data, errorMessage := some err,
        processedSet := true }
      (.ok ⟨docId, 0, 0, 0, 0, some ("failed".data), some err⟩,
       { db with document := some doc' })
    else if !overwrite && !db.blocks.isEmpty then
      (.ok ⟨docId, 0, 0, 0, 0, none, none⟩, db)
    else
      match pdf with
      | .error e =>
        -- the overwrite delete issued at the top of the `try` block is
        -- committed by the `except` branch together with the failure status
        let doc' := { doc with
          status := "failed".data, errorMessage := some e,
          processedSet := true }
        (.ok ⟨docId, 0, 0, 0, 0, some ("failed".data), some e⟩,
         { db with
           blocks := if overwrite then [] else db.blocks
           document := some doc' })
      | .ok pages =>
        let newBlocks := extractBlocks pages
        let doc' := { doc with
          pageCount := some pages.length,
          status := "text_structured".data, errorMessage := none,
          processedSet := true }
        (.ok ⟨docId, pages.length, newBlocks.length,
           (newBlocks.filter fun b => b.blockType = TITLE).length,
           (newBlocks.filter fun b => b.blockType = LIST_ITEM).length,
           none, none⟩,
         { db with
           blocks := (if overwrite then [] else db.blocks) ++ newBlocks
           document := some doc' })

/-- The summary dict of `embed_and_store_chunks`; `skipped` and `error`
record the optional keys. -/
structure EmbedSummary where
  chunksCreated : Nat
  embeddingModel : Str
  skipped : Bool
  error : Option Str
deriving DecidableEq, Repr

/-- The batched embedding loop (batch size 100): embed each batch, check
every vector's dimension before storing the batch's rows, and on a raised
error report the rows already added to the session (the `except` branch
commits them).  The embedder is assumed to return one vector per input. -/
def embedChunksLoop (embedFn : List Str → Except Str (List (List ℚ)))
    (modelName : Str) (remaining : List ChunkOut) :
    Except (Str × List ChunkRow) (List ChunkRow) :=
  match remaining with
  | [] => .ok []
  | r :: rs =>
    let batch := (r :: rs).take 100
    match embedFn (batch.map (·.text)) with
    | .error e => .error (e, [])
    | .ok embeddings =>
      match embeddings.find? fun v => !decide (v.length = VECTOR_DIM) with
      | some bad =>
        .error (("embedding_dim_mismatch: expected ".data) ++
          (Nat.repr VECTOR_DIM).data ++ (", got ".data) ++
          (Nat.repr bad.length).data ++ (" for model ".data) ++ modelName, [])
      | none =>
        let rows := (batch.zip embeddings).map fun pe =>
          ChunkRow.mk pe.1.page pe.1.text pe.2
        match embedChunksLoop embedFn modelName ((r :: rs).drop 100) with
        | .ok rest => .ok (rows ++ rest)
        | .error (e, rs) => .error (e, rows ++ rs)
  termination_by remaining.length
  decreasing_by
    simp only [List.length_drop, List.length_cons]
    omega

/-- Python `embed_and_store_chunks(document_id, db, model, overwrite, max_chars)`.
`apiKey` is `os.environ.get("OPENAI_API_KEY")`; `embedFn` is the OpenAI
embeddings call per batch of texts.  Returns the raised exception or the
summary, with the committed state after the call. -/
def embedAndStoreChunks (docId : Nat) (db : DBState) (modelName : Str)
    (overwrite : Bool) (maxChars : Nat) (apiKey : Option Str)
    (embedFn : List Str → Except Str (List (List ℚ))) :
    Except PyExc EmbedSummary × DBState :=
  match db.document with
  | none => (.error (.valueError (notFoundMsg docId)), db)
  | some doc =>
    if !db.chunks.isEmpty && !overwrite then
      (.ok ⟨0, modelName, true, none⟩, db)
    else
      let keyOk := match apiKey with
        | some k => !k.isEmpty
        | none => false
      if !keyOk then
        (.error (.runtimeError ("Set OPENAI_API_KEY before embedding.".data)),
         db)
      else
        let chunksAfterDelete := if overwrite then [] else db.chunks
        let chunkDicts := buildContextualChunks db.blocks db.assets maxChars true
        if chunkDicts.isEmpty then
          let doc' := { doc with
            status := "embedded".data, errorMessage := none,
            processedSet := true }
          (.ok ⟨0, modelName, false, none⟩,
           { db with chunks := chunksAfterDelete, document := some doc' })
        else
          match embedChunksLoop embedFn modelName chunkDicts with
          | .ok rows =>
            let doc' := { doc with
              status := "embedded".data, errorMessage := none,
              processedSet := true }
            (.ok ⟨rows.length, modelName, false, none⟩,
             { db with
               chunks := chunksAfterDelete ++ rows
               document := some doc' })
          | .error (e, rows) =>
            let doc' := { doc with
              status := "failed".data, errorMessage := some e,
              processedSet := true }
            (.ok ⟨0, modelName, false, some e⟩,
             { db with
               chunks := chunksAfterDelete ++ rows
               document := some doc' })

/-! Concrete instances used by the counterexamples and witnesses below. -/

/-- A 12-character unit carrying its own text as `paragraph_text`. -/
def c1unitA : ChunkUnit :=
  ⟨"aaaaaaaaaaaa".data, some ("aaaaaaaaaaaa".data)⟩

/-- A 12-character unit with no `paragraph_text`. -/
def c1unitB : ChunkUnit := ⟨"bbbbbbbbbbbb".data, none⟩

/-- Two one-paragraph sections on the same page. -/
def c2blocks : List BlockRow :=
  [⟨1, BlockType.TITLE, "A".data, none, false⟩,
   ⟨1, BlockType.PARAGRAPH, "x".data, none, false⟩,
   ⟨1, BlockType.TITLE, "B".data, none, false⟩,
   ⟨1, BlockType.PARAGRAPH, "y".data, none, false⟩]

/-- One captioned asset on page 1. -/
def c2assets : List AssetRow := [⟨some 1, "cap".data, []⟩]

/-- A document whose file exists, with one persisted block. -/
def c3db : DBState :=
  ⟨some ⟨some ("/f.pdf".data), true, "pending".data, none, none, false⟩,
   [⟨1, BlockType.PARAGRAPH, "old".data, none, false⟩], [], []⟩

/-- A header/footer-band line whose boilerplate key normalizes to the empty
string (digits and punctuation only). -/
def c5line : PageLine := ⟨"12 34".data, 10, false, true⟩

/-- A page holding only that line. -/
def c5page : List PageLine := [c5line]

/-- Six pages each carrying the digits-only band line. -/
def c5pages : List (List PageLine) := List.replicate 6 c5page

/-- A recurring band footer together with a body line. -/
def c5wLine : PageLine := ⟨"Annual Report 2026".data, 10, false, true⟩

/-- A body (non-band) line. -/
def c5wBody : PageLine := ⟨"Body text here.".data, 10, false, false⟩

/-- A page with the footer and the body line. -/
def c5wPage : List PageLine := [c5wLine, c5wBody]

/-- Six pages with the recurring footer. -/
def c5wPages : List (List PageLine) := List.replicate 6 c5wPage

/-- Five pages with the recurring footer. -/
def c5wPages5 : List (List PageLine) := List.replicate 5 c5wPage

/-- A bulleted line ending one page and another starting the next page. -/
def c7pages : List (List PageLine) :=
  [[⟨"- alpha beta".data, 10, false, false⟩],
   [⟨"- gamma delta".data, 10, false, false⟩]]

/-- A bold 150-character sentence: 30 uppercase letters followed by 120
lowercase ones (uppercase ratio 0.2), no list marker. -/
def c8text : Str := List.replicate 30 'T' ++ List.replicate 120 'h'

/-- A document with one persisted block row and one persisted chunk row. -/
def c9db : DBState :=
  ⟨some ⟨some ("/f.pdf".data), true, "text_structured".data, none, some 3, true⟩,
   [⟨1, BlockType.PARAGRAPH, "b".data, none, false⟩],
   [⟨1, "c".data, List.replicate VECTOR_DIM 0⟩], []⟩

/-- A database state with no document row. -/
def c10db : DBState := ⟨none, [], [], []⟩

/-- A section with a title and one short paragraph block. -/
def c6sec : SectionRec :=
  ⟨some 3, "Revenue Growth".data,
   [⟨3, BlockType.PARAGRAPH, "Sales rose.".data, none, false⟩]⟩

/-! Helper lemmas about the string primitives. -/

theorem pyStrip_eq (l : Str) :
    pyStrip l = List.rdropWhile isWS (l.dropWhile isWS) := rfl

theorem pyStrip_eq_nil_iff {l : Str} :
    pyStrip l = [] ↔ ∀ c ∈ l, isWS c = true := by
  rw [pyStrip_eq, List.rdropWhile_eq_nil_iff]
  constructor
  · intro h c hc
    rw [← List.takeWhile_append_dropWhile (p := isWS) (l := l)] at hc
    rcases List.mem_append.mp hc with h1 | h2
    · exact List.mem_takeWhile_imp h1
    · exact h c h2
  · intro h c hc
    exact h c ((List.dropWhile_suffix isWS).sublist.subset hc)

theorem pyStrip_ne_nil_of_ink {l : Str} {c : Char} (hc : c ∈ l)
    (hw : isWS c = false) : pyStrip l ≠ [] := by
  intro h
  have := pyStrip_eq_nil_iff.mp h c hc
  rw [hw] at this
  exact Bool.false_ne_true this

theorem dropWhile_eq_self_of_pyStrip {l : Str} (h : pyStrip l = l) :
    l.dropWhile isWS = l := by
  have hsuf := (List.dropWhile_suffix (l := l) isWS).sublist
  have hpre := ( List.rdropWhile_prefix isWS (l.dropWhile isWS)).sublist
  rw [← pyStrip_eq, h] at hpre
  exact List.Sublist.antisymm hsuf hpre

theorem rdropWhile_eq_self_of_pyStrip {l : Str} (h : pyStrip l = l) :
    List.rdropWhile isWS l = l := by
  have h1 := dropWhile_eq_self_of_pyStrip h
  rw [pyStrip_eq, h1] at h
  exact h

theorem pyStrip_head_not {l : Str} (h : pyStrip l = l) {c : Char} {t : Str}
    (he : l = c :: t) : isWS c = false := by
  have h1 := dropWhile_eq_self_of_pyStrip h
  subst he
  rw [List.dropWhile_cons] at h1
  by_contra hc
  rw [Bool.not_eq_false] at hc
  rw [if_pos hc] at h1
  have hlen := (List.dropWhile_suffix (l := t) isWS).sublist.length_le
  rw [h1, List.length_cons] at hlen
  omega

theorem pyStrip_last_not {l : Str} (h : pyStrip l = l) (hl : l ≠ []) :
    isWS (l.getLast hl) = false := by
  have h2 := rdropWhile_eq_self_of_pyStrip h
  have := List.rdropWhile_eq_self_iff.mp h2 hl
  simpa using this

theorem pyStrip_eq_self_of_ends {c : Char} {t : Str}
    (hc : isWS c = false)
    (hlast : isWS ((c :: t).getLast (by simp)) = false) :
    pyStrip (c :: t) = c :: t := by
  have h1 : (c :: t).dropWhile isWS = c :: t := by
    rw [List.dropWhile_cons, hc]
    simp
  rw [pyStrip_eq, h1, List.rdropWhile_eq_self_iff]
  intro h'
  simpa using hlast

theorem head_of_dropWhile {p : Char → Bool} {l s : Str} {c : Char}
    (h : l.dropWhile p = c :: s) : p c = false := by
  induction l with
  | nil => simp [List.dropWhile] at h
  | cons a as ih =>
    rw [List.dropWhile_cons] at h
    by_cases hp : p a
    · rw [if_pos hp] at h
      exact ih h
    · rw [if_neg hp] at h
      cases h
      simpa using hp

theorem pyStrip_idem (l : Str) : pyStrip (pyStrip l) = pyStrip l := by
  cases hl : pyStrip l with
  | nil => rfl
  | cons c t =>
    have hA : List.rdropWhile isWS (l.dropWhile isWS) = c :: t := by
      rw [← pyStrip_eq, hl]
    have hpre := List.rdropWhile_prefix isWS (l.dropWhile isWS)
    rw [hA] at hpre
    obtain ⟨r, hr⟩ := hpre
    have hAr : l.dropWhile isWS = c :: (t ++ r) := by
      rw [← hr, List.cons_append]
    have hc : isWS c = false := head_of_dropWhile hAr
    have hlast : isWS ((c :: t).getLast (by simp)) = false := by
      have h5 := List.rdropWhile_last_not isWS (l.dropWhile isWS)
        (by rw [hA]; simp)
      rw [Bool.not_eq_true] at h5
      have h6 : List.rdropWhile isWS (l.dropWhile isWS) = c :: t := hA
      revert h5
      rw [show ∀ hx, (List.rdropWhile isWS (l.dropWhile isWS)).getLast hx =
        (c :: t).getLast (by simp) from ?_]
      · exact fun h5 => h5
      · intro hx
        congr 1
    exact pyStrip_eq_self_of_ends hc hlast

theorem dropWhile_append_of_nil {α : Type} {p : α → Bool} {l₁ l₂ : List α}
    (h : l₁.dropWhile p = []) :
    (l₁ ++ l₂).dropWhile p = l₂.dropWhile p := by
  induction l₁ with
  | nil => simp
  | cons a as ih =>
    rw [List.dropWhile_cons] at h
    by_cases hp : p a
    · rw [if_pos hp] at h
      rw [List.cons_append, List.dropWhile_cons, if_pos hp]
      exact ih h
    · rw [if_neg hp] at h
      exact absurd h (by simp)

theorem dropWhile_append_of_ne {α : Type} {p : α → Bool} {l₁ l₂ : List α}
    (h : l₁.dropWhile p ≠ []) :
    (l₁ ++ l₂).dropWhile p = l₁.dropWhile p ++ l₂ := by
  induction l₁ with
  | nil => simp [List.dropWhile] at h
  | cons a as ih =>
    cases hp : p a with
    | true =>
      have h' : as.dropWhile p ≠ [] := by
        simpa [List.dropWhile_cons, hp] using h
      simp [List.dropWhile_cons, hp, ih h']
    | false => simp [List.dropWhile_cons, hp]

theorem pyStrip_append_self {a b : Str} (ha : pyStrip a = a)
    (hb : pyStrip b = b) (hna : a ≠ []) (hnb : b ≠ []) :
    pyStrip (a ++ '\n' :: b) = a ++ '\n' :: b := by
  obtain ⟨c, t, he⟩ := List.exists_cons_of_ne_nil hna
  have hc := pyStrip_head_not ha he
  have h1 : (a ++ '\n' :: b).dropWhile isWS = a ++ '\n' :: b := by
    rw [he, List.cons_append, List.dropWhile_cons, hc]
    simp
  rw [pyStrip_eq, h1, List.rdropWhile_eq_self_iff]
  intro h'
  rw [List.getLast_append]
  have hbe : b.isEmpty = false := by simpa using hnb
  rw [dif_neg (by simp [hbe])]
  have : ('\n' :: b).getLast (by simp) = b.getLast hnb := by
    rw [List.getLast_cons hnb]
  rw [this]
  simpa using pyStrip_last_not hb hnb

theorem pyStrip_append_ex {a : Str} (b : Str) (ha : pyStrip a = a)
    (hna : a ≠ []) : ∃ r, pyStrip (a ++ b) = a ++ r := by
  obtain ⟨c, t, he⟩ := List.exists_cons_of_ne_nil hna
  have hc := pyStrip_head_not ha he
  have h1 : (a ++ b).dropWhile isWS = a ++ b := by
    rw [he, List.cons_append, List.dropWhile_cons, hc]
    simp
  rw [pyStrip_eq, h1]
  show ∃ r, List.rdropWhile isWS (a ++ b) = a ++ r
  unfold List.rdropWhile
  rw [List.reverse_append]
  by_cases h2 : b.reverse.dropWhile isWS = []
  · refine ⟨[], ?_⟩
    rw [dropWhile_append_of_nil h2]
    have h3 := rdropWhile_eq_self_of_pyStrip ha
    unfold List.rdropWhile at h3
    simp [h3]
  · refine ⟨(b.reverse.dropWhile isWS).reverse, ?_⟩
    rw [dropWhile_append_of_ne h2, List.reverse_append, List.reverse_reverse]

theorem joinNL_cons_cons (p q : Str) (rest : List Str) :
    joinNL (p :: q :: rest) = p ++ '\n' :: joinNL (q :: rest) := rfl

theorem joinNL_merge (a b : Str) (rest : List Str) :
    joinNL (a :: b :: rest) = joinNL ((a ++ '\n' :: b) :: rest) := by
  cases rest with
  | nil => rfl
  | cons r rs =>
    rw [joinNL_cons_cons, joinNL_cons_cons, joinNL_cons_cons,
      List.append_assoc, List.cons_append]

theorem mem_joinNL {c : Char} {p : Str} {parts : List Str}
    (hp : p ∈ parts) (hc : c ∈ p) : c ∈ joinNL parts := by
  induction parts with
  | nil => cases hp
  | cons q rest ih =>
    cases rest with
    | nil =>
      rw [List.mem_singleton] at hp
      subst hp
      exact hc
    | cons r rs =>
      rw [joinNL_cons_cons]
      rcases List.mem_cons.mp hp with h1 | h2
      · subst h1
        exact List.mem_append_left _ hc
      · exact List.mem_append_right _ (List.mem_cons_of_mem _ (ih h2))

theorem mem_joinNL_append {c : Char} {A B : List Str}
    (h : c ∈ joinNL A) : c ∈ joinNL (A ++ B) := by
  induction A with
  | nil => cases h
  | cons q rest ih =>
    cases rest with
    | nil =>
      cases B with
      | nil => exact h
      | cons b bs =>
        rw [List.singleton_append, joinNL_cons_cons]
        exact List.mem_append_left _ h
    | cons r rs =>
      rw [List.cons_append, List.cons_append, joinNL_cons_cons]
      rw [joinNL_cons_cons] at h
      rcases List.mem_append.mp h with h1 | h2
      · exact List.mem_append_left _ h1
      · rcases List.mem_cons.mp h2 with h3 | h4
        · exact List.mem_append_right _ (by simp [h3])
        · exact List.mem_append_right _
            (List.mem_cons_of_mem _ (ih h4))

/-! Helper lemmas about the chunk splitter. -/

theorem splitGo_nil (t : Str) (m : Nat) (cur : List ChunkUnit) :
    splitGo t m cur [] =
      if cur.isEmpty then []
      else if (composeChunkText t cur).isEmpty then []
      else [composeChunkText t cur] := rfl

theorem splitGo_cons (t : Str) (m : Nat) (cur : List ChunkUnit)
    (u : ChunkUnit) (rest : List ChunkUnit) :
    splitGo t m cur (u :: rest) =
      if !cur.isEmpty &&
          decide (m < (composeChunkText t (cur ++ [u])).length) then
        (if (composeChunkText t cur).isEmpty then []
         else [composeChunkText t cur]) ++
          splitGo t m (overlapSeed cur ++ [u]) rest
      else splitGo t m (cur ++ [u]) rest := rfl

theorem splitGoUnits_nil (t : Str) (m : Nat) (cur : List ChunkUnit) :
    splitGoUnits t m cur [] =
      if cur.isEmpty then []
      else if (composeChunkText t cur).isEmpty then []
      else [cur] := rfl

theorem splitGoUnits_cons (t : Str) (m : Nat) (cur : List ChunkUnit)
    (u : ChunkUnit) (rest : List ChunkUnit) :
    splitGoUnits t m cur (u :: rest) =
      if !cur.isEmpty &&
          decide (m < (composeChunkText t (cur ++ [u])).length) then
        (if (composeChunkText t cur).isEmpty then [] else [cur]) ++
          splitGoUnits t m (overlapSeed cur ++ [u]) rest
      else splitGoUnits t m (cur ++ [u]) rest := rfl

theorem composeChunkText_ne_nil_of_unit_ink {t : Str} {units : List ChunkUnit}
    {u : ChunkUnit} (hu : u ∈ units) {c : Char} (hc : c ∈ u.text)
    (hw : isWS c = false) : composeChunkText t units ≠ [] := by
  apply pyStrip_ne_nil_of_ink (c := c) _ hw
  apply mem_joinNL (p := u.text) _ hc
  apply List.mem_append_right
  rw [List.mem_filter]
  refine ⟨List.mem_map_of_mem _ hu, ?_⟩
  have h : u.text ≠ [] := by
    intro h
    rw [h] at hc
    cases hc
  simpa using h

theorem composeChunkText_append_ne_nil {t : Str} {cur ext : List ChunkUnit}
    (h : composeChunkText t cur ≠ []) :
    composeChunkText t (cur ++ ext) ≠ [] := by
  have h1 : ∃ c ∈ joinNL ((if t.isEmpty then [] else [t]) ++
      (cur.map (·.text)).filter fun s => !s.isEmpty), isWS c = false := by
    by_contra hno
    push_neg at hno
    apply h
    show pyStrip _ = []
    rw [pyStrip_eq_nil_iff]
    intro c hc
    simpa using hno c hc
  obtain ⟨c, hc, hw⟩ := h1
  have h2 : composeChunkText t (cur ++ ext) =
      pyStrip (joinNL (((if t.isEmpty then [] else [t]) ++
        (cur.map (·.text)).filter (fun s => !s.isEmpty)) ++
        (ext.map (·.text)).filter fun s => !s.isEmpty)) := by
    show pyStrip _ = _
    rw [List.map_append, List.filter_append, List.append_assoc]
  rw [h2]
  exact pyStrip_ne_nil_of_ink (mem_joinNL_append hc) hw

theorem splitGo_eq_map (t : Str) (m : Nat) :
    ∀ (us cur : List ChunkUnit),
      splitGo t m cur us =
        (splitGoUnits t m cur us).map (composeChunkText t) := by
  intro us
  induction us with
  | nil =>
    intro cur
    rw [splitGo_nil, splitGoUnits_nil]
    by_cases h1 : cur.isEmpty <;>
      by_cases h2 : (composeChunkText t cur).isEmpty <;> simp [h1, h2]
  | cons u rest ih =>
    intro cur
    rw [splitGo_cons, splitGoUnits_cons]
    by_cases hov : (!cur.isEmpty &&
        decide (m < (composeChunkText t (cur ++ [u])).length)) = true
    · rw [if_pos hov, if_pos hov, List.map_append, ih]
      by_cases h2 : (composeChunkText t cur).isEmpty <;> simp [h2]
    · rw [if_neg hov, if_neg hov, ih]

theorem splitUnits_eq_map (t : Str) (units : List ChunkUnit) (m : Nat) :
    splitUnitsWithOverlap t units m =
      (splitUnitsAsLists t units m).map (composeChunkText t) := by
  unfold splitUnitsWithOverlap splitUnitsAsLists
  by_cases hu : units.isEmpty
  · by_cases ht : t.isEmpty
    · simp [hu, ht]
    · rw [if_pos hu, if_pos hu, if_neg ht, if_neg ht]
      simp [composeChunkText, ht, joinNL]
  · rw [if_neg hu, if_neg hu]
    exact splitGo_eq_map t m units []

theorem overlapSeed_shape (cur : List ChunkUnit) :
    overlapSeed cur = [] ∨ ∃ p, overlapSeed cur = [⟨p, some p⟩] := by
  cases hg : cur.getLast? with
  | none => exact Or.inl (by simp [overlapSeed, hg])
  | some lastU =>
    cases hp : lastU.paragraphText with
    | none => exact Or.inl (by simp [overlapSeed, hg, hp])
    | some p =>
      by_cases hpe : p.isEmpty
      · exact Or.inl (by simp [overlapSeed, hg, hp, hpe])
      · exact Or.inr ⟨p, by simp [overlapSeed, hg, hp, hpe]⟩

theorem splitGoUnits_shape (t : Str) (m : Nat) :
    ∀ (us cur : List ChunkUnit),
      (cur = [] ∨ cur.length = 1 ∨
        (cur.length = 2 ∧ ∃ p, cur.head? = some ⟨p, some p⟩) ∨
        (composeChunkText t cur).length ≤ m) →
      ∀ ul ∈ splitGoUnits t m cur us,
        (composeChunkText t ul).length ≤ m ∨ ul.length = 1 ∨
        (ul.length = 2 ∧ ∃ p, ul.head? = some ⟨p, some p⟩) := by
  intro us
  induction us with
  | nil =>
    intro cur hcur ul hul
    rw [splitGoUnits_nil] at hul
    by_cases h1 : cur.isEmpty
    · simp [h1] at hul
    · by_cases h2 : (composeChunkText t cur).isEmpty
      · simp [h1, h2] at hul
      · simp [h1, h2] at hul
        rw [hul]
        rcases hcur with h | h | h | h
        · exact absurd h (by simpa using h1)
        · exact Or.inr (Or.inl h)
        · exact Or.inr (Or.inr h)
        · exact Or.inl h
  | cons u rest ih =>
    intro cur hcur ul hul
    rw [splitGoUnits_cons] at hul
    by_cases hov : (!cur.isEmpty &&
        decide (m < (composeChunkText t (cur ++ [u])).length)) = true
    · rw [if_pos hov] at hul
      rcases List.mem_append.mp hul with h1 | h2
      · by_cases h3 : (composeChunkText t cur).isEmpty
        · simp [h3] at h1
        · simp [h3] at h1
          rw [h1]
          have hne : cur ≠ [] := by
            intro h
            rw [h] at hov
            simp at hov
          rcases hcur with h | h | h | h
          · exact absurd h hne
          · exact Or.inr (Or.inl h)
          · exact Or.inr (Or.inr h)
          · exact Or.inl h
      · refine ih (overlapSeed cur ++ [u]) ?_ ul h2
        rcases overlapSeed_shape cur with hs | ⟨p, hs⟩
        · rw [hs]
          exact Or.inr (Or.inl rfl)
        · rw [hs]
          exact Or.inr (Or.inr (Or.inl ⟨rfl, p, rfl⟩))
    · rw [if_neg hov] at hul
      refine ih (cur ++ [u]) ?_ ul hul
      by_cases hce : cur.isEmpty
      · rw [List.isEmpty_iff.mp hce]
        exact Or.inr (Or.inl rfl)
      · refine Or.inr (Or.inr (Or.inr ?_))
        have hnlt : ¬ (m < (composeChunkText t (cur ++ [u])).length) := by
          intro hlt
          exact hov (by simp [hce, hlt])
        omega

theorem splitGoUnits_head_extend (t : Str) (m : Nat) :
    ∀ (us cur : List ChunkUnit), cur ≠ [] → composeChunkText t cur ≠ [] →
      ∃ ext rest', splitGoUnits t m cur us = (cur ++ ext) :: rest' := by
  intro us
  induction us with
  | nil =>
    intro cur h1 h2
    refine ⟨[], [], ?_⟩
    have e1 : cur.isEmpty = false := by simpa using h1
    have e2 : (composeChunkText t cur).isEmpty = false := by simpa using h2
    rw [splitGoUnits_nil, e1, e2]
    simp
  | cons u rest ih =>
    intro cur h1 h2
    rw [splitGoUnits_cons]
    by_cases hov : (!cur.isEmpty &&
        decide (m < (composeChunkText t (cur ++ [u])).length)) = true
    · rw [if_pos hov]
      have e2 : (composeChunkText t cur).isEmpty = false := by simpa using h2
      rw [e2]
      exact ⟨[], splitGoUnits t m (overlapSeed cur ++ [u]) rest, by simp⟩
    · rw [if_neg hov]
      obtain ⟨ext, rest', hx⟩ :=
        ih (cur ++ [u]) (by simp) (composeChunkText_append_ne_nil h2)
      refine ⟨u :: ext, rest', ?_⟩
      rw [hx, List.append_assoc]
      rfl

/-! Claim C1. -/

/-- Claim C1, corrected.  Every chunk emitted by `_split_units_with_overlap`
either has text length at most `max_chars`, or its unit list is a single
unit, or an overlap carry-over unit (text equal to its own `paragraph_text`)
followed by a single unit, or it is the bare-title chunk of an empty unit
list; such oversized chunks are emitted uncut.  The original claim allowed
only the single-unit exception, which the counterexample below refutes. -/
theorem claim1_chunk_size_bound (titleText : Str) (units : List ChunkUnit)
    (maxChars : Nat) :
    splitUnitsWithOverlap titleText units maxChars =
      (splitUnitsAsLists titleText units maxChars).map
        (composeChunkText titleText) ∧
    ∀ ul ∈ splitUnitsAsLists titleText units maxChars,
      (composeChunkText titleText ul).length ≤ maxChars ∨ ul.length = 1 ∨
      (ul.length = 2 ∧ ∃ p, ul.head? = some ⟨p, some p⟩) ∨ ul = [] := by
  refine ⟨splitUnits_eq_map _ _ _, ?_⟩
  intro ul hul
  unfold splitUnitsAsLists at hul
  by_cases hu : units.isEmpty
  · rw [if_pos hu] at hul
    by_cases ht : titleText.isEmpty
    · simp [ht] at hul
    · simp [ht] at hul
      rw [hul]
      exact Or.inr (Or.inr (Or.inr rfl))
  · rw [if_neg hu] at hul
    rcases splitGoUnits_shape titleText maxChars units [] (Or.inl rfl) ul hul
      with h | h | h
    · exact Or.inl h
    · exact Or.inr (Or.inl h)
    · exact Or.inr (Or.inr (Or.inl h))

/-- Witness for claim C1 at a concrete input. -/
theorem claim1_witness :
    (composeChunkText ("T".data) [⟨"x".data, none⟩]).length ≤ 2000 ∨
    ([⟨"x".data, none⟩] : List ChunkUnit).length = 1 ∨
    (([⟨"x".data, none⟩] : List ChunkUnit).length = 2 ∧
      ∃ p, ([⟨"x".data, none⟩] : List ChunkUnit).head? = some ⟨p, some p⟩) ∨
    ([⟨"x".data, none⟩] : List ChunkUnit) = [] :=
  (claim1_chunk_size_bound ("T".data) [⟨"x".data, none⟩] 2000).2
    [⟨"x".data, none⟩] (by decide)

/-- Counterexample to claim C1 as stated: with `max_chars = 20`, two
12-character units (the first carrying a `paragraph_text`) produce a second
chunk of 25 characters built from two units — the overlap carry-over and the
second unit — neither of which is oversized by itself, so the oversized
chunk does not consist of exactly one oversized unit. -/
theorem claim1_counterexample :
    splitUnitsWithOverlap [] [c1unitA, c1unitB] 20 =
      [c1unitA.text, c1unitA.text ++ '\n' :: c1unitB.text] ∧
    20 < (c1unitA.text ++ '\n' :: c1unitB.text).length ∧
    c1unitA.text.length ≤ 20 ∧ c1unitB.text.length ≤ 20 ∧
    splitUnitsAsLists [] [c1unitA, c1unitB] 20 =
      [[c1unitA], [⟨c1unitA.text, some c1unitA.text⟩, c1unitB]] := by
  decide

/-! Claim C4. -/

/-- Claim C4, confirmed.  When a chunk closes because adding the next unit
would exceed `max_chars` and the closing chunk's last accumulated unit has a
(visible) `paragraph_text`, the next emitted chunk's unit list starts with
the carry-over unit whose text is exactly that `paragraph_text`, and the
emitted chunk texts are the compositions of those unit lists. -/
theorem claim4_overlap_seeding (titleText : Str) (maxChars : Nat)
    (cur : List ChunkUnit) (u : ChunkUnit) (rest : List ChunkUnit)
    (lastU : ChunkUnit) (p : Str) (c : Char)
    (hlast : cur.getLast? = some lastU)
    (hp : lastU.paragraphText = some p)
    (hc : c ∈ p) (hw : isWS c = false)
    (hover : maxChars < (composeChunkText titleText (cur ++ [u])).length) :
    ∃ ext rest',
      splitGoUnits titleText maxChars cur (u :: rest) =
        (if (composeChunkText titleText cur).isEmpty then [] else [cur]) ++
          (⟨p, some p⟩ :: u :: ext) :: rest' ∧
      splitGo titleText maxChars cur (u :: rest) =
        (if (composeChunkText titleText cur).isEmpty then []
         else [composeChunkText titleText cur]) ++
          composeChunkText titleText (⟨p, some p⟩ :: u :: ext) ::
            rest'.map (composeChunkText titleText) := by
  have hcur : cur ≠ [] := by
    intro h
    rw [h] at hlast
    simp at hlast
  have hpne : p.isEmpty = false := by
    cases p with
    | nil => cases hc
    | cons a as => rfl
  have hseed : overlapSeed cur = [⟨p, some p⟩] := by
    simp [overlapSeed, hlast, hp, hpne]
  have hcompose_ne :
      composeChunkText titleText (⟨p, some p⟩ :: [u]) ≠ [] :=
    composeChunkText_ne_nil_of_unit_ink (u := ⟨p, some p⟩)
      (by simp) hc hw
  obtain ⟨ext, rest', hx⟩ :=
    splitGoUnits_head_extend titleText maxChars rest ([⟨p, some p⟩] ++ [u])
      (by simp) (by simpa using hcompose_ne)
  have hov : (!cur.isEmpty && decide (maxChars <
      (composeChunkText titleText (cur ++ [u])).length)) = true := by
    simp [hcur, hover]
  have hfirst : splitGoUnits titleText maxChars cur (u :: rest) =
      (if (composeChunkText titleText cur).isEmpty then [] else [cur]) ++
        (⟨p, some p⟩ :: u :: ext) :: rest' := by
    rw [splitGoUnits_cons, if_pos hov, hseed, hx]
    rfl
  refine ⟨ext, rest', hfirst, ?_⟩
  rw [splitGo_eq_map, hfirst, List.map_append, List.map_cons]
  by_cases h2 : (composeChunkText titleText cur).isEmpty <;> simp [h2]

/-- Witness for claim C4 at a concrete input. -/
theorem claim4_witness :
    ∃ ext rest',
      splitGoUnits ("T".data) 5 [⟨"aaaa".data, some ("aaaa".data)⟩]
          (⟨"bbbb".data, none⟩ :: []) =
        (if (composeChunkText ("T".data)
            [⟨"aaaa".data, some ("aaaa".data)⟩]).isEmpty then []
         else [[⟨"aaaa".data, some ("aaaa".data)⟩]]) ++
          (⟨"aaaa".data, some ("aaaa".data)⟩ :: ⟨"bbbb".data, none⟩ :: ext)
            :: rest' ∧
      splitGo ("T".data) 5 [⟨"aaaa".data, some ("aaaa".data)⟩]
          (⟨"bbbb".data, none⟩ :: []) =
        (if (composeChunkText ("T".data)
            [⟨"aaaa".data, some ("aaaa".data)⟩]).isEmpty then []
         else [composeChunkText ("T".data)
            [⟨"aaaa".data, some ("aaaa".data)⟩]]) ++
          composeChunkText ("T".data)
            (⟨"aaaa".data, some ("aaaa".data)⟩ :: ⟨"bbbb".data, none⟩ :: ext)
            :: rest'.map (composeChunkText ("T".data)) :=
  claim4_overlap_seeding ("T".data) 5 [⟨"aaaa".data, some ("aaaa".data)⟩]
    ⟨"bbbb".data, none⟩ [] ⟨"aaaa".data, some ("aaaa".data)⟩ ("aaaa".data)
    'a' (by decide) (by decide) (by decide) (by decide) (by decide)

/-! Claim C8. -/

/-- Claim C8, confirmed.  A line that does not match a list marker, is bold,
has length at least 120, and whose font size does not exceed 1.2 times the
page median is classified PARAGRAPH: the oversized-font test fails and the
bold heuristic requires length strictly below 120. -/
theorem claim8_long_bold_paragraph (text : Str) (fontSize median : ℚ)
    (hmarker : matchesListMarker text = false)
    (hlen : 120 ≤ text.length)
    (hfs : fontSize ≤ median * (6 / 5)) :
    classifyText text fontSize true median = BlockType.PARAGRAPH := by
  unfold classifyText
  rw [hmarker]
  have h1 : ¬ (median > 0 ∧ fontSize > median * (6 / 5)) := by
    rintro ⟨-, h⟩
    exact absurd hfs (not_le.mpr h)
  have h2 : ¬ (text.length < 120) := by omega
  simp [h1, h2]

/-- Witness for claim C8: a bold 150-character sentence (30 uppercase, 120
lowercase letters, uppercase ratio 0.2) with font size equal to the median is
classified PARAGRAPH. -/
theorem claim8_witness :
    classifyText c8text 10 true 10 = BlockType.PARAGRAPH :=
  claim8_long_bold_paragraph c8text 10 10 (by decide) (by decide)
    (by norm_num)

/-! Claim C5. -/

/-- Claim C5, corrected.  (1) A header/footer-band line whose normalized
boilerplate key is nonempty and occurs on at least 6 distinct pages is
excluded from every page's filtered list; the original claim omits the
nonempty-key condition, which the counterexample below shows is necessary,
because the collection pass skips falsy keys.  (2) A line whose key occurs on
exactly 5 distinct pages is retained.  (3) A line outside the header/footer
band is never excluded. -/
theorem claim5_boilerplate_filter (pages : List (List PageLine))
    (pg : List PageLine) (l : PageLine) (hl : l ∈ pg) :
    (l.isHeaderFooter = true → normalizeBoilerplate l.text ≠ [] →
      6 ≤ numPagesWithKey pages (normalizeBoilerplate l.text) →
      l ∉ filteredPage pages pg) ∧
    (numPagesWithKey pages (normalizeBoilerplate l.text) = 5 →
      l ∈ filteredPage pages pg) ∧
    (l.isHeaderFooter = false → l ∈ filteredPage pages pg) := by
  refine ⟨?_, ?_, ?_⟩
  · intro hb hk hn hmem
    rw [filteredPage, List.mem_filter] at hmem
    rcases hmem with ⟨-, hpred⟩
    have hke : (normalizeBoilerplate l.text).isEmpty = false := by
      simpa using hk
    have hexc : isExcludedItem pages l = true := by
      simp [isExcludedItem, boilerplateKeyOf, hb, isBoilerplateKey, hke, hn]
    rw [hexc] at hpred
    simp at hpred
  · intro h5
    rw [filteredPage, List.mem_filter]
    refine ⟨hl, ?_⟩
    have hexc : isExcludedItem pages l = false := by
      cases hb : l.isHeaderFooter
      · simp [isExcludedItem, boilerplateKeyOf, hb]
      · simp [isExcludedItem, boilerplateKeyOf, hb, isBoilerplateKey, h5]
    simp [hexc]
  · intro hb
    rw [filteredPage, List.mem_filter]
    refine ⟨hl, ?_⟩
    simp [isExcludedItem, hb]

/-- Witness for claim C5: the band footer of the six-page document is
excluded from the filtered page (its key "annual report" is nonempty and
occurs on 6 distinct pages). -/
theorem claim5_witness :
    c5wLine ∉ filteredPage c5wPages c5wPage :=
  (claim5_boilerplate_filter c5wPages c5wPage c5wLine (by decide)).1
    (by decide) (by decide) (by decide)

/-- Counterexample to claim C5 as stated: the band line `"12 34"` normalizes
to the empty boilerplate key, which occurs on all 6 pages, yet the line is
retained on every page, because the collection pass only records truthy
keys. -/
theorem claim5_counterexample :
    c5line.isHeaderFooter = true ∧
    normalizeBoilerplate c5line.text = [] ∧
    6 ≤ numPagesWithKey c5pages (normalizeBoilerplate c5line.text) ∧
    c5line ∈ c5page ∧
    c5line ∈ filteredPage c5pages c5page := by decide

/-! Claim C10. -/

/-- Claim C10, confirmed.  When no document row exists, both services raise
`ValueError("Document {id} not found")` before any write: the returned
committed state is the input state. -/
theorem claim10_not_found (docId : Nat) (db : DBState)
    (hdoc : db.document = none) (overwrite : Bool)
    (pdf : Except Str (List (List PageLine)))
    (modelName : Str) (maxChars : Nat) (apiKey : Option Str)
    (embedFn : List Str → Except Str (List (List ℚ))) :
    extractStructuredText docId db overwrite pdf =
      (.error (.valueError (notFoundMsg docId)), db) ∧
    embedAndStoreChunks docId db modelName overwrite maxChars apiKey embedFn =
      (.error (.valueError (notFoundMsg docId)), db) := by
  constructor
  · unfold extractStructuredText
    rw [hdoc]
  · unfold embedAndStoreChunks
    rw [hdoc]

/-- Witness for claim C10 at a concrete input. -/
theorem claim10_witness :
    extractStructuredText 5 c10db true (.ok []) =
      (.error (.valueError (notFoundMsg 5)), c10db) ∧
    embedAndStoreChunks 5 c10db ("text-embedding-3-small".data) true 2000
        none (fun _ => .ok []) =
      (.error (.valueError (notFoundMsg 5)), c10db) :=
  claim10_not_found 5 c10db rfl true (.ok [])
    ("text-embedding-3-small".data) 2000 none (fun _ => .ok [])

/-! Claim C9. -/

/-- Claim C9, confirmed.  With `overwrite=false` and at least one existing
Block row, extraction returns a zero-count summary and leaves the Block and
Chunk rows unchanged (whether or not the file path is valid); with at least
one existing Chunk row, chunk embedding returns the zero-count skip summary
and changes nothing. -/
theorem claim9_overwrite_false_noop (docId : Nat) (db : DBState)
    (doc : DocRecord) (hdoc : db.document = some doc)
    (pdf : Except Str (List (List PageLine)))
    (modelName : Str) (maxChars : Nat) (apiKey : Option Str)
    (embedFn : List Str → Except Str (List (List ℚ))) :
    (db.blocks ≠ [] →
      (extractStructuredText docId db false pdf).2.blocks = db.blocks ∧
      (extractStructuredText docId db false pdf).2.chunks = db.chunks ∧
      ∃ s, (extractStructuredText docId db false pdf).1 = .ok s ∧
        s.blocksCreated = 0 ∧ s.pagesProcessed = 0 ∧
        s.titlesCount = 0 ∧ s.listItemsCount = 0) ∧
    (db.chunks ≠ [] →
      embedAndStoreChunks docId db modelName false maxChars apiKey embedFn =
        (.ok ⟨0, modelName, true, none⟩, db)) := by
  constructor
  · intro hb
    unfold extractStructuredText
    rw [hdoc]
    dsimp only
    by_cases hpath : ((match doc.localPath with
        | none => true
        | some p => p.isEmpty) || !doc.fileExists) = true
    · rw [if_pos hpath]
      exact ⟨rfl, rfl, _, rfl, rfl, rfl, rfl, rfl⟩
    · rw [if_neg hpath]
      have hbe : db.blocks.isEmpty = false := by simpa using hb
      rw [if_pos (by simp [hbe])]
      exact ⟨rfl, rfl, _, rfl, rfl, rfl, rfl, rfl⟩
  · intro hc
    unfold embedAndStoreChunks
    rw [hdoc]
    dsimp only
    have hce : db.chunks.isEmpty = false := by simpa using hc
    rw [if_pos (by simp [hce])]

/-- Witness for claim C9 at a concrete input. -/
theorem claim9_witness :
    ((extractStructuredText 4 c9db false (.ok [])).2.blocks = c9db.blocks ∧
      (extractStructuredText 4 c9db false (.ok [])).2.chunks = c9db.chunks ∧
      ∃ s, (extractStructuredText 4 c9db false (.ok [])).1 = .ok s ∧
        s.blocksCreated = 0 ∧ s.pagesProcessed = 0 ∧
        s.titlesCount = 0 ∧ s.listItemsCount = 0) ∧
    embedAndStoreChunks 4 c9db ("text-embedding-3-small".data) false 2000
        none (fun _ => .ok []) =
      (.ok ⟨0, ("text-embedding-3-small".data), true, none⟩, c9db) := by
  have h := claim9_overwrite_false_noop 4 c9db
    ⟨some ("/f.pdf".data), true, "text_structured".data, none, some 3, true⟩
    rfl (.ok []) ("text-embedding-3-small".data) 2000 none (fun _ => .ok [])
  exact ⟨h.1 (by decide), h.2 (by decide)⟩

/-! Claim C3. -/

/-- Claim C3 is refuted by the code (a code bug relative to the spec's
transactional requirement): when extraction fails after the overwrite
delete, the `except` branch commits the session — including the pending
delete — so the persisted block set is emptied rather than left unchanged,
while the summary reports failure with zero counts.  Evaluated at a concrete
failing input: a document with one persisted block, `overwrite=true`, and a
PDF read that raises `"boom"`. -/
theorem claim3_failed_overwrite_commits_delete :
    c3db.blocks ≠ [] ∧
    (extractStructuredText 7 c3db true (.error ("boom".data))).2.blocks
      = [] ∧
    (extractStructuredText 7 c3db true (.error ("boom".data))).1 =
      .ok ⟨7, 0, 0, 0, 0, some ("failed".data), some ("boom".data)⟩ ∧
    (extractStructuredText 7 c3db true (.error ("boom".data))).2.document =
      some ⟨some ("/f.pdf".data), true, "failed".data, some ("boom".data),
        none, true⟩ := by
  exact ⟨by decide, rfl, rfl, rfl⟩

/-! Claim C7, counterexample part. -/

/-- Counterexample to claim C7 as stated: two consecutive bulleted lines of
the document's classified line stream that sit on different pages do not
merge — the merge fold is reset at each page boundary — so the run yields
two LIST_ITEM blocks instead of one. -/
theorem claim7_counterexample :
    extractBlocks c7pages =
      [⟨1, BlockType.LIST_ITEM, "- alpha beta".data, some 10, false⟩,
       ⟨2, BlockType.LIST_ITEM, "- gamma delta".data, some 10, false⟩] ∧
    (extractBlocks c7pages).length ≠ 1 := by
  refine ⟨by decide, by decide⟩

/-! Claim C2, counterexample part. -/

/-- Counterexample to claim C2 as stated: two sections on page 1 both
receive the page's caption text; the first chunk — not the last chunk of
the document with page 1 — is also annotated, instead of staying `"A\nx"`. -/
theorem claim2_counterexample :
    buildContextualChunks c2blocks c2assets 2000 true =
      [⟨1, "A\nx\nRelated figure/table: cap".data⟩,
       ⟨1, "B\ny\nRelated figure/table: cap".data⟩] ∧
    (buildContextualChunks c2blocks c2assets 2000 true).head? ≠
      some ⟨1, "A\nx".data⟩ := by
  refine ⟨by decide, by decide⟩

/-! Claim C2, amended part. -/

/-- Claim C2, corrected.  The asset text of a page is appended to the last
chunk of **every section** whose page equals that page number (so several
chunks receive it when sections share a page), not only to the last chunk of
the document with that page; sections whose page has no caption data keep
their base chunks unchanged.  The second conjunct records that the document
chunk list is exactly the concatenation of the per-section chunk lists. -/
theorem claim2_caption_append (assetFn : Nat → List Str) (maxChars : Nat)
    (sec : SectionRec) :
    sectionChunkTexts assetFn maxChars sec =
      (if !(pyStrip (joinNL (assetFn (pageOr1 sec.page)))).isEmpty &&
          !(sectionChunkTexts (fun _ => []) maxChars sec).isEmpty then
        (sectionChunkTexts (fun _ => []) maxChars sec).dropLast ++
          [pyStrip
            ((sectionChunkTexts (fun _ => []) maxChars sec).getLastD [] ++
              '\n' :: pyStrip (joinNL (assetFn (pageOr1 sec.page))))]
      else sectionChunkTexts (fun _ => []) maxChars sec) ∧
    ∀ (blocks : List BlockRow) (assets : List AssetRow),
      buildContextualChunks blocks assets maxChars true =
        ((buildSections blocks).map
          (sectionChunks (buildAssetMap assets) maxChars)).flatten := by
  constructor
  · have hbase : sectionChunkTexts (fun _ => []) maxChars sec =
        sectionBaseChunks maxChars sec := rfl
    rw [hbase]
    rfl
  · intro blocks assets
    by_cases hb : blocks.isEmpty
    · rw [List.isEmpty_iff.mp hb]
      rfl
    · unfold buildContextualChunks
      rw [if_neg hb]
      rfl

/-! Claim C6. -/

theorem getLastD_mem {α : Type} (l : List α) (d : α) (h : l ≠ []) :
    l.getLastD d ∈ l := by
  rw [List.getLastD_eq_getLast?, List.getLast?_eq_getLast l h]
  exact List.getLast_mem h

theorem title_prefix_compose {t : Str} (hts : pyStrip t = t) (hne : t ≠ [])
    (units : List ChunkUnit) : ∃ r, composeChunkText t units = t ++ r := by
  unfold composeChunkText
  rw [if_neg (by simpa using hne)]
  cases hF : (units.map (·.text)).filter (fun s => !s.isEmpty) with
  | nil =>
    refine ⟨[], ?_⟩
    rw [show ([t] ++ ([] : List Str)) = [t] from by simp]
    rw [show joinNL [t] = t from rfl, hts]
    simp
  | cons f fs =>
    rw [show ([t] ++ f :: fs) = t :: f :: fs from rfl, joinNL_cons_cons]
    exact pyStrip_append_ex _ hts hne

/-- Claim C6, confirmed.  Every chunk of a section whose stripped title is
nonempty — including the title-only fallback chunk and a last chunk extended
with asset caption text — has text starting with that title. -/
theorem claim6_chunk_title (assetFn : Nat → List Str) (maxChars : Nat)
    (sec : SectionRec) (hne : pyStrip sec.title ≠ [])
    (ck : ChunkOut) (hck : ck ∈ sectionChunks assetFn maxChars sec) :
    ∃ r, ck.text = pyStrip sec.title ++ r := by
  have hts : pyStrip (pyStrip sec.title) = pyStrip sec.title :=
    pyStrip_idem sec.title
  have hbase : ∀ tx ∈ sectionBaseChunks maxChars sec,
      ∃ r, tx = pyStrip sec.title ++ r := by
    intro tx htx
    unfold sectionBaseChunks at htx
    by_cases hcs : ((splitUnitsWithOverlap (pyStrip sec.title)
        (unitsOfSegments (contentSegments (sectionSegments sec)) [])
        maxChars).isEmpty && !(pyStrip sec.title).isEmpty) = true
    · rw [if_pos hcs] at htx
      rw [List.mem_singleton] at htx
      exact ⟨[], by rw [htx]; simp⟩
    · rw [if_neg hcs] at htx
      rw [splitUnits_eq_map] at htx
      rcases List.mem_map.mp htx with ⟨ul, -, hul⟩
      rcases title_prefix_compose hts hne ul with ⟨r, hr⟩
      exact ⟨r, by rw [← hul, hr]⟩
  rcases List.mem_map.mp hck with ⟨tx, htx, hcktx⟩
  have hcktext : ck.text = tx := by rw [← hcktx]
  rw [hcktext]
  unfold sectionChunkTexts at htx
  by_cases hcond : (!(pyStrip (joinNL (assetFn (pageOr1 sec.page)))).isEmpty
      && !(sectionBaseChunks maxChars sec).isEmpty) = true
  · rw [if_pos hcond] at htx
    rcases List.mem_append.mp htx with h1 | h2
    · exact hbase tx (List.mem_of_mem_dropLast h1)
    · rw [List.mem_singleton] at h2
      have hbne : sectionBaseChunks maxChars sec ≠ [] := by
        intro hx
        rw [hx] at hcond
        simp at hcond
      rcases hbase _ (getLastD_mem _ [] hbne) with ⟨r0, hr0⟩
      rw [h2, hr0, List.append_assoc]
      exact pyStrip_append_ex _ hts hne
  · rw [if_neg hcond] at htx
    exact hbase tx htx

/-- Witness for claim C6 at a concrete input. -/
theorem claim6_witness :
    ∃ r, (ChunkOut.mk 3 ("Revenue Growth\nSales rose.".data)).text =
      pyStrip c6sec.title ++ r :=
  claim6_chunk_title (fun _ => []) 2000 c6sec (by decide)
    ⟨3, "Revenue Growth\nSales rose.".data⟩ (by decide)

/-! Claim C7, amended part. -/

theorem mergeLoop_nil (median : ℚ) (current : Option OpenBlock) :
    mergeLoop median current [] = closeOpt current := rfl

theorem mergeLoop_cons_some (median : ℚ) (c : OpenBlock) (it : LineItem)
    (rest : List LineItem) :
    mergeLoop median (some c) (it :: rest) =
      if shouldMerge c (mkOpen median it) then
        mergeLoop median (some (mergeInto c (mkOpen median it))) rest
      else closeBlock c :: mergeLoop median (some (mkOpen median it)) rest :=
  rfl

theorem mergeLoop_cons_none (median : ℚ) (it : LineItem)
    (rest : List LineItem) :
    mergeLoop median none (it :: rest) =
      mergeLoop median (some (mkOpen median it)) rest := rfl

theorem appendText_listitem {a b : Str} (ha : pyStrip a = a)
    (hb : pyStrip b = b) (hna : a ≠ []) (hnb : b ≠ []) :
    appendText a b BlockType.LIST_ITEM = a ++ '\n' :: b := by
  unfold appendText
  rw [if_neg (by simpa using hna), if_neg (by simpa using hnb), if_pos rfl]
  exact pyStrip_append_self ha hb hna hnb

/-- The accumulation step of a LIST_ITEM run: each further LIST_ITEM line is
merged and the block text stays the newline-join of all the line texts. -/
theorem mergeLoop_listrun (median : ℚ) :
    ∀ (run : List LineItem) (c : OpenBlock) (rest : List LineItem),
      c.blockType = BlockType.LIST_ITEM → c.text ≠ [] →
      pyStrip c.text = c.text →
      (∀ it ∈ run,
        classifyText it.text it.fontSize it.isBold median =
          BlockType.LIST_ITEM ∧ it.text ≠ [] ∧ pyStrip it.text = it.text) →
      (∀ r rs, rest = r :: rs →
        classifyText r.text r.fontSize r.isBold median ≠
          BlockType.LIST_ITEM) →
      ∃ fs bold,
        mergeLoop median (some c) (run ++ rest) =
          ⟨c.pageNumber, BlockType.LIST_ITEM,
            joinNL (c.text :: run.map (·.text)), fs, bold⟩ ::
            restTail median rest := by
  intro run
  induction run with
  | nil =>
    intro c rest hcb hct hcs _ hrest
    cases rest with
    | nil =>
      refine ⟨if c.fontSize = 0 then none else some c.fontSize, c.isBold, ?_⟩
      rw [List.nil_append, mergeLoop_nil]
      simp [closeOpt, closeBlock, finalizeBlockType, hcb, joinNL, restTail]
    | cons r rs =>
      have hm : shouldMerge c (mkOpen median r) = false := by
        unfold shouldMerge
        rw [if_pos ?_]
        show c.blockType ≠ (mkOpen median r).blockType
        rw [hcb]
        intro h
        exact hrest r rs rfl h.symm
      refine ⟨if c.fontSize = 0 then none else some c.fontSize, c.isBold, ?_⟩
      rw [List.nil_append, mergeLoop_cons_some, hm]
      rw [if_neg (by simp)]
      have hclose : closeBlock c =
          ⟨c.pageNumber, BlockType.LIST_ITEM, joinNL [c.text],
            if c.fontSize = 0 then none else some c.fontSize, c.isBold⟩ := by
        simp [closeBlock, finalizeBlockType, hcb, joinNL]
      rw [hclose]
      rfl
  | cons it run' ih =>
    intro c rest hcb hct hcs hrun hrest
    obtain ⟨hcls, htne, htstr⟩ := hrun it (List.mem_cons_self it run')
    have hm : shouldMerge c (mkOpen median it) = true := by
      simp [shouldMerge, mkOpen, hcls, hcb]
    rw [List.cons_append, mergeLoop_cons_some, hm, if_pos rfl]
    have hc' : mergeInto c (mkOpen median it) =
        { c with
          text := c.text ++ '\n' :: it.text
          fontSize := max c.fontSize it.fontSize
          isBold := c.isBold || it.isBold } := by
      unfold mergeInto
      have hbt : (mkOpen median it).blockType = BlockType.LIST_ITEM := hcls
      have htx : (mkOpen median it).text = it.text := rfl
      have hfs : (mkOpen median it).fontSize = it.fontSize := rfl
      have hib : (mkOpen median it).isBold = it.isBold := rfl
      rw [hbt, htx, hfs, hib, appendText_listitem hcs htstr hct htne]
    rw [hc']
    obtain ⟨fs, bold, hres⟩ := ih
      { c with
        text := c.text ++ '\n' :: it.text
        fontSize := max c.fontSize it.fontSize
        isBold := c.isBold || it.isBold } rest hcb (by simp)
      (pyStrip_append_self hcs htstr hct htne)
      (fun x hx => hrun x (List.mem_cons_of_mem it hx)) hrest
    refine ⟨fs, bold, ?_⟩
    rw [hres, List.map_cons, joinNL_merge]

/-- Claim C7, corrected.  Within one page's merge fold, a run of consecutive
LIST_ITEM-classified lines (preceded by a non-LIST_ITEM open block or
nothing, and followed by a non-LIST_ITEM line or the page end) merges into
exactly one LIST_ITEM block whose text is the newline-join of the run's line
texts.  The original claim's quantification over the whole classified line
stream fails, because the fold is reset at every page boundary — the
counterexample shows a bullet run spanning two pages yielding two blocks. -/
theorem claim7_listitem_run_merge (median : ℚ) (cur : Option OpenBlock)
    (run : List LineItem) (rest : List LineItem) (first : LineItem)
    (hfirst : run.head? = some first)
    (hclass : ∀ it ∈ run,
      classifyText it.text it.fontSize it.isBold median =
        BlockType.LIST_ITEM)
    (hclean : ∀ it ∈ run, it.text ≠ [] ∧ pyStrip it.text = it.text)
    (hcur : ∀ c, cur = some c → c.blockType ≠ BlockType.LIST_ITEM)
    (hrest : ∀ r rs, rest = r :: rs →
      classifyText r.text r.fontSize r.isBold median ≠
        BlockType.LIST_ITEM) :
    ∃ fs bold,
      mergeLoop median cur (run ++ rest) =
        closeOpt cur ++
          ⟨first.pageNumber, BlockType.LIST_ITEM,
            joinNL (run.map (·.text)), fs, bold⟩ ::
          restTail median rest := by
  cases run with
  | nil => simp at hfirst
  | cons it0 run' =>
    have hit0 : it0 = first := by simpa using hfirst
    subst hit0
    obtain ⟨h0a, h0b⟩ := hclean it0 (List.mem_cons_self it0 run')
    have h0c := hclass it0 (List.mem_cons_self it0 run')
    have hopen : mkOpen median it0 =
        ⟨it0.pageNumber, BlockType.LIST_ITEM, it0.text, it0.fontSize,
          it0.isBold⟩ := by
      unfold mkOpen
      rw [h0c]
    obtain ⟨fs, bold, hres⟩ := mergeLoop_listrun median run'
      (mkOpen median it0) rest (by rw [hopen]) (by rw [hopen]; exact h0a)
      (by rw [hopen]; exact h0b)
      (fun x hx =>
        ⟨hclass x (List.mem_cons_of_mem it0 hx),
         (hclean x (List.mem_cons_of_mem it0 hx)).1,
         (hclean x (List.mem_cons_of_mem it0 hx)).2⟩) hrest
    cases cur with
    | none =>
      refine ⟨fs, bold, ?_⟩
      rw [List.cons_append, mergeLoop_cons_none]
      rw [hres]
      rw [show closeOpt none = [] from rfl, List.nil_append]
      rw [hopen]
      rfl
    | some c =>
      have hm : shouldMerge c (mkOpen median it0) = false := by
        unfold shouldMerge
        rw [if_pos ?_]
        show c.blockType ≠ (mkOpen median it0).blockType
        rw [hopen]
        exact hcur c rfl
      refine ⟨fs, bold, ?_⟩
      rw [List.cons_append, mergeLoop_cons_some, hm, if_neg (by simp)]
      rw [hres, hopen]
      rfl

/-- Witness for claim C7 at a concrete input: two bulleted lines on one page
merge into a single LIST_ITEM block. -/
theorem claim7_witness :
    ∃ fs bold,
      mergeLoop 10 none
          ([⟨1, "- a".data, 10, false⟩, ⟨1, "- b".data, 10, false⟩] ++ []) =
        closeOpt none ++
          ⟨1, BlockType.LIST_ITEM,
            joinNL ([⟨1, "- a".data, 10, false⟩,
              (⟨1, "- b".data, 10, false⟩ : LineItem)].map (·.text)),
            fs, bold⟩ :: restTail 10 [] :=
  claim7_listitem_run_merge 10 none
    [⟨1, "- a".data, 10, false⟩, ⟨1, "- b".data, 10, false⟩] []
    ⟨1, "- a".data, 10, false⟩ (by decide) (by decide) (by decide)
    (by intro c h; cases h) (by intro r rs h; cases h)

end TVRag
